import Mathlib

/-
Verification of the CNTK ImageReader core (DataReader/ImageReader/ImageReader.cpp)
against its natural-language specification.

The C++ core is shallowly embedded below.  Conventions of the embedding:

- Machine integers (int, size_t) become Nat or Int; where the source computes an
  index in size_t arithmetic from a possibly negative int, the wrap modulo 2^64
  is made explicit (`wrapIdx`).
- Floating point values (crop ratio bounds, pixel data) are modelled as exact
  rationals.
- An assertion in the source (`assert(e)`) is embedded as a guard producing
  `Err.assertFailed`: an assertion violation halts the debug build, so the
  embedded function faults instead of continuing.
- A `RuntimeError(...)` call is embedded as `Err.runtimeError` with the message
  of the source; the map-file format RuntimeError, whose message embeds the
  offending line number via printf formatting, is embedded as
  `Err.mapFormatError lineNo` so that the line number it reports is explicit.
  The std::stoi exceptions escape Init uncaught and carry no line number; they
  are embedded as the distinct constructors `Err.stoiInvalidArgument` and
  `Err.stoiOutOfRange`.
- A std::mt19937 generator object is identified by the seed it was constructed
  with (`MT`).  The numbers a generator emits are irrelevant to every claim
  except through the contract of the distribution applied to them, so each draw
  enters a function as an explicit oracle argument: `uniIntT lo hi r` realises
  every value the C++ uniform_int_distribution(lo, hi) can produce as r ranges
  over Nat, and a uniform_real_distribution draw is passed in directly as a
  rational, constrained by hypotheses exactly where the source asserts about it.
- std::shuffle is an external permutation primitive of the standard library; it
  is passed in as an oracle `shuffleFn` consuming and returning the generator.
- cv::imread plus the per-sample transform chain inside GetMinibatch is the
  image-decoding capability the spec treats as external; GetMinibatch receives
  it as a total oracle `procImg` from the image path to the pixel data that ends
  up copied into the feature buffer.
- Out-of-bounds writes through std::vector operator[] are undefined behaviour
  in the source; the embedding models them as no-ops (`List.set` is the
  identity out of range), and theorems that rely on an index being in bounds
  carry the corresponding hypothesis.
-/

namespace ImageReaderModel

/-- Failure outcomes of the embedded functions. -/
inductive Err where
  | runtimeError (msg : String)
  | mapFormatError (lineNo : Nat)
  | stoiInvalidArgument
  | stoiOutOfRange
  | assertFailed
  deriving DecidableEq, Repr

instance {ε α : Type} [DecidableEq ε] [DecidableEq α] : DecidableEq (Except ε α)
  | .error e, .error f =>
    if h : e = f then isTrue (congrArg _ h)
    else isFalse fun hh => h (Except.error.inj hh)
  | .error _, .ok _ => isFalse fun hh => Except.noConfusion hh
  | .ok _, .error _ => isFalse fun hh => Except.noConfusion hh
  | .ok a, .ok b =>
    if h : a = b then isTrue (congrArg _ h)
    else isFalse fun hh => h (Except.ok.inj hh)

/-- Embedded std::mt19937 generator object, identified by the seed it was
constructed with or last reseeded to. -/
structure MT where
  seed : Nat
  deriving DecidableEq, Repr

/-- Embeds conc_stack pop_or_create: pop an existing generator from the pool if
one is available, otherwise construct a fresh generator from the given seed. -/
def popOrCreate (pool : List MT) (seed : Nat) : MT × List MT :=
  match pool with
  | [] => (⟨seed⟩, [])
  | g :: rest => (g, rest)

/-- Embeds the contract of std::uniform_int_distribution(lo, hi): for hi ≥ lo,
as the oracle r ranges over Nat this ranges over exactly the closed interval
[lo, hi], which is the set of values the C++ distribution can return. -/
def uniIntT (lo hi r : Nat) : Nat :=
  lo + r % (hi + 1 - lo)

/-- Embeds AreEqual (ImageReader.cpp line 19): std::equal over the characters
of s1 compares exactly s1.length characters of s2 case-insensitively.  Reading
past the end of s2 (when s1 is longer) is undefined behaviour in the source and
is modelled as a mismatch. -/
def areEqual (s1 s2 : String) : Bool :=
  s1.toList.map Char.toLower = (s2.toList.take s1.length).map Char.toLower

/-- Embeds CropTransform::CropType. -/
inductive CropType where
  | Center
  | Random
  deriving DecidableEq, Repr

/-- Embeds CropTransform::RatioJitterType. -/
inductive RatioJitterType where
  | None
  | UniRatio
  | UniLength
  | UniArea
  deriving DecidableEq, Repr

/-- Embeds CropTransform::ParseJitterType (ImageReader.cpp lines 124-136). -/
def parseJitterType (src : String) : Except Err RatioJitterType :=
  if src.isEmpty || areEqual src "none" then .ok .None
  else if areEqual src "uniratio" then .ok .UniRatio
  else if areEqual src "unilength" then .ok .UniLength
  else if areEqual src "uniarea" then .ok .UniArea
  else .error (.runtimeError "Invalid jitter type.")

/-- Embedded cv::Mat: row-major pixel data with interleaved channels, the pixel
value at (r, c, ch) sitting at index (r * cols + c) * channels + ch.  The depth
field carries the OpenCV depth code (CV_32F = 5, CV_64F = 6); pixel values are
exact rationals.  An empty (released) matrix has rows = cols = 0. -/
structure Img where
  rows : Nat
  cols : Nat
  channels : Nat
  depth : Nat
  data : List ℚ
  deriving DecidableEq, Repr

/-- Embedded cv::Rect. -/
structure Rect where
  x : Nat
  y : Nat
  width : Nat
  height : Nat
  deriving DecidableEq, Repr

/-- Embeds CropTransform::GetCropRect (ImageReader.cpp lines 138-164).  The
entry assertions on crow, ccol and the crop ratio, and the exit assertions on
the offsets, are embedded as guards.  Inside the guarded region every quantity
the source computes in int arithmetic is nonnegative, so Nat arithmetic agrees
with the source: static_cast<int> of the nonnegative double min(crow, ccol) *
cropRatio truncates toward zero, that is, takes the floor.  The oracles r1 and
r2 feed the two uniform_int_distribution draws of the Random branch. -/
def getCropRect (type : CropType) (crow ccol : Nat) (cropRt : ℚ) (r1 r2 : Nat) :
    Except Err Rect :=
  if crow = 0 then .error .assertFailed
  else if ccol = 0 then .error .assertFailed
  else if ¬ (0 < cropRt ∧ cropRt ≤ 1) then .error .assertFailed
  else
    let cropSize : Nat := (⌊(min crow ccol : ℚ) * cropRt⌋).toNat
    let xOff : Nat :=
      match type with
      | .Center => (ccol - cropSize) / 2
      | .Random => uniIntT 0 (ccol - cropSize) r1
    let yOff : Nat :=
      match type with
      | .Center => (crow - cropSize) / 2
      | .Random => uniIntT 0 (crow - cropSize) r2
    if xOff ≤ ccol - cropSize ∧ yOff ≤ crow - cropSize then
      .ok ⟨xOff, yOff, cropSize, cropSize⟩
    else .error .assertFailed

/-- Embedded CropTransform state: the seed captured at construction, the
generator pool, and the configuration fields set by Init.  Init never touches
m_seed, which keeps the value passed to the constructor. -/
structure CropState where
  seed : Nat
  pool : List MT
  cropType : CropType
  cropRatioMin : ℚ
  cropRatioMax : ℚ
  jitterType : RatioJitterType
  hFlip : Bool
  deriving DecidableEq, Repr

/-- Embeds the submatrix view mat(rect): pixels of the rectangle read out of
the parent image, row-major with interleaved channels. -/
def cropData (img : Img) (rect : Rect) : List ℚ :=
  (List.range rect.height).flatMap fun r =>
    (List.range rect.width).flatMap fun c =>
      (List.range img.channels).map fun ch =>
        img.data.getD (((rect.y + r) * img.cols + (rect.x + c)) * img.channels + ch) 0

/-- Embeds mat = mat(rect) inside CropTransform::Apply. -/
def cropImg (img : Img) (rect : Rect) : Img :=
  { img with rows := rect.height, cols := rect.width, data := cropData img rect }

/-- Embeds cv::flip(mat, mat, 1): mirror each row horizontally. -/
def flipH (img : Img) : Img :=
  { img with
    data :=
      (List.range img.rows).flatMap fun r =>
        (List.range img.cols).flatMap fun c =>
          (List.range img.channels).map fun ch =>
            img.data.getD ((r * img.cols + (img.cols - 1 - c)) * img.channels + ch) 0 }

/-- Embeds CropTransform::Apply (ImageReader.cpp lines 76-99): pop or create a
pool generator, draw the crop ratio according to the jitter type (faulting on
the unimplemented kinds), crop via GetCropRect, flip with probability one half
when enabled, push the generator back.  Oracle arguments: ratioDraw is the
uniform_real_distribution output used by the UniRatio branch, r1 and r2 feed
the offset draws of GetCropRect, flipDraw is the bernoulli_distribution
output. -/
def cropApply (ratioDraw : ℚ) (r1 r2 : Nat) (flipDraw : Bool) (st : CropState)
    (img : Img) : Except Err (Img × CropState) :=
  let rp := popOrCreate st.pool st.seed
  match st.jitterType with
  | .UniLength => .error (.runtimeError "Jitter type currently not implemented.")
  | .UniArea => .error (.runtimeError "Jitter type currently not implemented.")
  | jt =>
    let cropRt : ℚ := if jt = .None then st.cropRatioMin else ratioDraw
    if jt = .UniRatio ∧ ¬ (st.cropRatioMin ≤ cropRt ∧ cropRt < st.cropRatioMax) then
      .error .assertFailed
    else
      match getCropRect st.cropType img.rows img.cols cropRt r1 r2 with
      | .error e => .error e
      | .ok rect =>
        let img1 := cropImg img rect
        let img2 := if st.hFlip ∧ flipDraw then flipH img1 else img1
        .ok (img2, { st with pool := rp.1 :: rp.2 })

/-- Embedded ScaleTransform state: construction seed, generator pool, OpenCV
depth code chosen from the element type, and the configuration from Init. -/
structure ScaleState where
  seed : Nat
  pool : List MT
  dataType : Nat
  width : Nat
  height : Nat
  channels : Nat
  interp : List Nat
  deriving DecidableEq, Repr

/-- Embeds ScaleTransform::Apply (ImageReader.cpp lines 214-228).  convertTo
changes only the depth of the matrix, never its channel count, and the numeric
conversion is the identity on the rational pixel model; cv::resize produces a
matrix with the requested cols = width and rows = height and the channel count
of its input.  The resampled pixel data is floating-point interpolation,
external to every claim, and enters as the oracle `resample` applied to the
chosen interpolation method and the converted input. -/
def scaleApply (resample : Nat → Img → List ℚ) (rDraw : Nat) (st : ScaleState)
    (img : Img) : Except Err (Img × ScaleState) :=
  let img1 :=
    if img.depth ≠ st.dataType ∨ img.channels ≠ st.channels then
      { img with depth := st.dataType }
    else img
  let rp := popOrCreate st.pool st.seed
  if st.interp.isEmpty then .error .assertFailed
  else
    let chosen := st.interp.getD (uniIntT 0 (st.interp.length - 1) rDraw) 0
    let out : Img :=
      { rows := st.height, cols := st.width, channels := img1.channels,
        depth := img1.depth, data := resample chosen img1 }
    .ok (out, { st with pool := rp.1 :: rp.2 })

/-- Embeds MeanTransform::Apply (ImageReader.cpp lines 281-288).  The size
comparisons of the source compare cv::Size, that is, the (cols, rows) pair; an
empty (released) mean image compares equal to Size(0, 0).  The assertion on
entry demands an empty mean image or a full match of size and channels; the
subtraction itself is guarded only by the size comparison.  Elementwise
subtraction of float matrices does not saturate, so it is zipWith on the
rational data. -/
def meanApply (meanImg : Img) (mat : Img) : Except Err Img :=
  if ¬ ((meanImg.cols = 0 ∧ meanImg.rows = 0) ∨
        ((meanImg.cols = mat.cols ∧ meanImg.rows = mat.rows) ∧
         meanImg.channels = mat.channels)) then
    .error .assertFailed
  else if meanImg.cols = mat.cols ∧ meanImg.rows = mat.rows then
    .ok { mat with data := List.zipWith (· - ·) mat.data meanImg.data }
  else
    .ok mat

/-- Embeds the whitespace class std::isspace consults in the "C" locale, which
std::stoi skips before parsing. -/
def isSpaceCh (c : Char) : Bool :=
  c = ' ' || c = '\t' || c = '\n' || c = '\x0b' || c = '\x0c' || c = '\r'

/-- Embeds std::stoi on a base-10 string: skip leading whitespace, accept one
optional sign, then demand at least one decimal digit; parse the longest digit
prefix and ignore anything after it.  No digits is invalid_argument; a value
outside the int range is out_of_range. -/
def stoi (s : String) : Except Err Int :=
  let cs := s.toList.dropWhile isSpaceCh
  let sg : Int × List Char :=
    match cs with
    | '-' :: rest => (-1, rest)
    | '+' :: rest => (1, rest)
    | _ => (1, cs)
  let digits := sg.2.takeWhile Char.isDigit
  if digits = [] then .error .stoiInvalidArgument
  else
    let v : Int := sg.1 * (digits.foldl (fun a c => a * 10 + (c.toNat - '0'.toNat)) 0 : Nat)
    if v < -(2 ^ 31) ∨ 2 ^ 31 - 1 < v then .error .stoiOutOfRange
    else .ok v

/-- Embeds the two std::getline(ss, field, tab) calls on one manifest line
(ImageReader.cpp lines 348-351).  getline fails exactly when the stream is
already exhausted before it extracts anything: the first call fails on an empty
line; after the first call consumed through the first tab (or the whole line if
it has no tab), the second call fails when no character is left, that is, when
the line has no tab or ends at its first tab.  Each extracted field is the run
of characters before the next tab; characters after the second field are left
unread.  Returns the two fields, or none when either getline fails. -/
def parseMapLine (line : String) : Option (String × String) :=
  let cs := line.toList
  if cs = [] then none
  else
    let imgPath := cs.takeWhile (· ≠ '\t')
    if imgPath.length = cs.length then none
    else
      let rest := cs.drop (imgPath.length + 1)
      if rest = [] then none
      else some (String.mk imgPath, String.mk (rest.takeWhile (· ≠ '\t')))

/-- Embeds the manifest-loading loop of ImageReader::Init (ImageReader.cpp
lines 345-354), with cline counting lines from 0 as the source does.  A failed
getline pair raises the map-format RuntimeError naming cline; std::stoi on the
second field may raise its own exceptions, which carry no line number. -/
def loadManifestAux : Nat → List String → Except Err (List (String × Int))
  | _, [] => .ok []
  | cline, line :: rest =>
    match parseMapLine line with
    | none => .error (.mapFormatError cline)
    | some pc =>
      match stoi pc.2 with
      | .error e => .error e
      | .ok v =>
        match loadManifestAux (cline + 1) rest with
        | .error e => .error e
        | .ok tail => .ok ((pc.1, v) :: tail)

/-- Embeds loading a manifest file already split into its lines. -/
def loadManifest (lines : List String) : Except Err (List (String × Int)) :=
  loadManifestAux 0 lines

/-- Decides that one manifest line is accepted: both getline calls succeed and
std::stoi accepts the second field. -/
def lineAccepted (line : String) : Bool :=
  match parseMapLine line with
  | none => false
  | some pc =>
    match stoi pc.2 with
    | .error _ => false
    | .ok _ => true

/-- Embedded ImageReader state: the manifest, the epoch bookkeeping fields, the
packed buffers, the shared seed with the shuffle generator, and the three
transforms in pipeline order. -/
structure ReaderState where
  files : List (String × Int)
  featDim : Nat
  labDim : Nat
  epoch : Nat
  epochSize : Nat
  epochStart : Nat
  mbStart : Nat
  mbSize : Nat
  featBuf : List ℚ
  labBuf : List ℚ
  seed : Nat
  rng : MT
  imgListRand : Bool
  cropT : CropState
  scaleT : ScaleState
  meanImg : Img
  deriving DecidableEq, Repr

/-- Embeds the ImageReader constructor (ImageReader.cpp lines 297-303):
m_seed(0), m_rng(m_seed), m_imgListRand(true), and the three transforms, the
crop and scale transforms capturing the value of m_seed at construction.  The
dataType argument is CV_32F or CV_64F depending on the element type of the
instantiation.  Fields later assigned by Init start out default-initialized. -/
def mkImageReader (dataType : Nat) : ReaderState :=
  { files := [], featDim := 0, labDim := 0, epoch := 0, epochSize := 0,
    epochStart := 0, mbStart := 0, mbSize := 0, featBuf := [], labBuf := [],
    seed := 0, rng := ⟨0⟩, imgListRand := true,
    cropT := { seed := 0, pool := [], cropType := .Center, cropRatioMin := 1,
               cropRatioMax := 1, jitterType := .None, hFlip := false },
    scaleT := { seed := 0, pool := [], dataType := dataType, width := 0,
                height := 0, channels := 0, interp := [] },
    meanImg := { rows := 0, cols := 0, channels := 1, depth := 0, data := [] } }

/-- Embeds ImageReader::SetRandomSeed (ImageReader.cpp lines 460-465): store
the new seed and reseed m_rng with it.  The transforms are not touched. -/
def setRandomSeed (rs : ReaderState) (seed : Nat) : ReaderState :=
  { rs with seed := seed, rng := ⟨seed⟩ }

/-- Modelled from the spec: the distinguished "use full dataset" sentinel
requestDataSize is declared in DataReader.h, which is not under src/.  Its
exact numeric value is immaterial here: the source compares
requestedEpochSamples against it only for equality, and it is nonzero because
StartMinibatchLoop asserts requestedEpochSamples > 0. -/
def requestDataSize : Nat := 2 ^ 62 - 1

/-- Embeds std::vector::resize on the packed buffers: keep the first n
elements, appending value-initialized (zero) elements when growing. -/
def resizeBuf (buf : List ℚ) (n : Nat) : List ℚ :=
  buf.take n ++ List.replicate (n - buf.length) 0

/-- Embeds ImageReader::StartMinibatchLoop (ImageReader.cpp lines 372-394).
The std::shuffle applied to the manifest when randomization is on is the
standard-library permutation primitive, passed in as the oracle shuffleFn
consuming and returning the shuffle generator m_rng.  The two entry assertions
and the epoch-size multiple assertion are embedded as guards. -/
def startMinibatchLoop
    (shuffleFn : MT → List (String × Int) → List (String × Int) × MT)
    (rs : ReaderState) (mbSize epoch req : Nat) : Except Err ReaderState :=
  if mbSize = 0 then .error .assertFailed
  else if req = 0 then .error .assertFailed
  else
    let fr := if rs.imgListRand then shuffleFn rs.rng rs.files else (rs.files, rs.rng)
    let epochSize := if req = requestDataSize then fr.1.length else req
    if req ≠ requestDataSize ∧ epochSize % mbSize ≠ 0 then .error .assertFailed
    else
      let epochStart := epoch * epochSize
      let sp : Nat × Nat :=
        if fr.1.length ≤ epochStart then (0, 0) else (epochStart, rs.mbStart)
      .ok { rs with
            files := fr.1, rng := fr.2, epochSize := epochSize, mbSize := mbSize,
            epoch := epoch, epochStart := sp.1, mbStart := sp.2,
            featBuf := resizeBuf rs.featBuf (mbSize * rs.featDim),
            labBuf := resizeBuf rs.labBuf (mbSize * rs.labDim) }

/-- Embeds the size_t value of the int expression m_labDim * i + p.second: the
int label is converted to size_t modulo 2^64 and added, so the effective index
is the integer value reduced modulo 2^64. -/
def wrapIdx (i : Int) : Nat :=
  (i % (2 : Int) ^ 64).toNat

/-- Embeds the label stores m_labBuf[m_labDim * i + p.second] = 1 of the
minibatch loop, sample index i counting up from start.  A store whose index
falls outside the buffer is undefined behaviour in the source and is a no-op
here (List.set out of range). -/
def writeLabels (labDim : Nat) : Nat → List Int → List ℚ → List ℚ
  | _, [], buf => buf
  | i, l :: rest, buf =>
    writeLabels labDim (i + 1) rest (buf.set (wrapIdx (labDim * i + l)) 1)

/-- Embeds std::copy(data, data + featDim, buf.begin() + start): overwrite the
featDim positions from start with the pixel data, reading a default past the
end of a short source (reading past the end is undefined behaviour in the
source). -/
def setSlice (buf : List ℚ) (start : Nat) (featDim : Nat) (xs : List ℚ) : List ℚ :=
  (List.range featDim).foldl (fun b k => b.set (start + k) (xs.getD k 0)) buf

/-- Embeds the feature stores of the minibatch loop: sample i, counting up from
start, copies featDim elements of its processed image into the feature buffer
at offset featDim * i. -/
def writeFeats (featDim : Nat) : Nat → List (List ℚ) → List ℚ → List ℚ
  | _, [], buf => buf
  | i, img :: rest, buf =>
    writeFeats featDim (i + 1) rest (setSlice buf (featDim * i) featDim img)

/-- Embeds ImageReader::GetMinibatch (ImageReader.cpp lines 396-436).  The
per-sample work inside the parallel loop — cv::imread of the manifest path
followed by the transform chain — is the image-decoding capability the spec
treats as external; it enters as the total oracle procImg from the path to the
pixel data whose first featDim elements the loop copies out.  The loop order is
irrelevant because every sample writes disjoint index-determined slots; the
embedding processes samples in index order.  Returns false and leaves the
state unchanged when no data is left, otherwise fills the buffers from the
slice [mbStart, mbLim) of the manifest and advances mbStart to mbLim. -/
def getMinibatch (procImg : String → List ℚ) (rs : ReaderState) :
    Except Err (Bool × ReaderState) :=
  if rs.mbSize = 0 then .error .assertFailed
  else if rs.files.length ≤ rs.mbStart ∨ rs.epochStart + rs.epochSize ≤ rs.mbStart then
    .ok (false, rs)
  else
    let mbLim := min (rs.mbStart + rs.mbSize) rs.files.length
    let batch := (rs.files.drop rs.mbStart).take (mbLim - rs.mbStart)
    let labBuf0 := List.replicate rs.labBuf.length (0 : ℚ)
    let labBuf := writeLabels rs.labDim 0 (batch.map Prod.snd) labBuf0
    let featBuf := writeFeats rs.featDim 0 (batch.map fun p => procImg p.1) rs.featBuf
    .ok (true, { rs with mbStart := mbLim, labBuf := labBuf, featBuf := featBuf })

/-- Embeds the actual batch size mbLim - m_mbStart of one GetMinibatch call. -/
def actualBatch (rs : ReaderState) : Nat :=
  min (rs.mbStart + rs.mbSize) rs.files.length - rs.mbStart

/-- Embeds the one-hot row the label loop produces for one sample: the store
of 1 at offset label into a zero row of width labDim. -/
def oneHot (labDim : Nat) (l : Int) : List ℚ :=
  (List.replicate labDim (0 : ℚ)).set l.toNat 1

/-- Concrete shuffle oracle for witnesses: the identity permutation, a
legitimate value of std::shuffle. -/
def shuffleId : MT → List (String × Int) → List (String × Int) × MT :=
  fun g xs => (xs, g)

/-- Concrete image-processing oracle for witnesses. -/
def procConst : String → List ℚ := fun _ => []

/-- Concrete resampling oracle for witnesses. -/
def resampleConst : Nat → Img → List ℚ := fun _ _ => []

/-- Concrete reader state for witnesses: three manifest entries, labelDim 2,
minibatch size 2, one epoch of two samples, buffers as StartMinibatchLoop
leaves them. -/
def rsDemo : ReaderState :=
  { mkImageReader 5 with
    files := [("a", 0), ("b", 1), ("c", 1)], featDim := 1, labDim := 2,
    mbSize := 2, mbStart := 0, epoch := 0, epochSize := 2, epochStart := 0,
    featBuf := [0, 0], labBuf := [0, 0, 0, 0] }

/-- Concrete reader state for witnesses, mid-iteration at mbStart = 1. -/
def rsDemoB : ReaderState := { rsDemo with mbStart := 1 }

/-- Concrete successor state of rsDemo under one GetMinibatch call. -/
def rsDemo2 : ReaderState :=
  match getMinibatch procConst rsDemo with
  | .ok (_, s) => s
  | .error _ => rsDemo

/-- Concrete input image for counterexamples: 2 x 2, one channel. -/
def imgSmall : Img := ⟨2, 2, 1, 5, [1, 2, 3, 4]⟩

/-- Concrete scale configuration for the C6 counterexample: target 4 x 4 with
three configured channels. -/
def scaleStX : ScaleState := ⟨0, [], 5, 4, 4, 3, [1]⟩

/-- Concrete mean image for the C7 counterexample: 2 x 2, one channel, so its
size matches imgWide below while its channel count does not. -/
def meanX : Img := ⟨2, 2, 1, 5, [1, 1, 1, 1]⟩

/-- Concrete sample image for the C7 counterexample: 2 x 2, three channels. -/
def imgWide : Img := ⟨2, 2, 3, 5, [0, 0, 0, 0, 0, 0, 0, 0, 0, 0, 0, 0]⟩

/-- Concrete crop state with unimplemented jitter for the C8 witness. -/
def cropStX : CropState :=
  { seed := 0, pool := [], cropType := .Center, cropRatioMin := 1,
    cropRatioMax := 1, jitterType := .UniLength, hFlip := false }

/-- Reader state after SetRandomSeed(7), for the C9 counterexample. -/
def rsSeeded : ReaderState := setRandomSeed (mkImageReader 5) 7

/-- Crop transform of rsSeeded as Init would configure it; Init does not touch
the seed captured at construction. -/
def cropStY : CropState :=
  { rsSeeded.cropT with
    cropType := .Center, cropRatioMin := 1, cropRatioMax := 1,
    jitterType := .None, hFlip := false }

/-- Concrete result of one ScaleTransform application, for witnesses. -/
def scaleDemo : Img × ScaleState :=
  match scaleApply resampleConst 0 scaleStX imgSmall with
  | .ok pr => pr
  | .error _ => (imgSmall, scaleStX)

/-! Theorems. -/

theorem uniIntT_le (hi r : Nat) : uniIntT 0 hi r ≤ hi := by
  unfold uniIntT
  simp only [Nat.sub_zero, Nat.zero_add]
  have h : r % (hi + 1) < hi + 1 := Nat.mod_lt r (Nat.succ_pos hi)
  omega

/-- C3: for rows > 0, cols > 0 and a ratio in (0, 1], GetCropRect produces a
square of side cropSize = floor(min(rows, cols) * ratio); the Center offsets
are exactly ((cols - cropSize) / 2, (rows - cropSize) / 2), and the Random
offsets, for every pair of generator draws, lie within
[0, cols - cropSize] x [0, rows - cropSize]. -/
theorem c3_crop_rect (crow ccol : Nat) (cropRt : ℚ) (r1 r2 : Nat)
    (hrow : 0 < crow) (hcol : 0 < ccol) (h0 : 0 < cropRt) (h1 : cropRt ≤ 1) :
    getCropRect .Center crow ccol cropRt r1 r2 =
      .ok ⟨(ccol - (⌊(min crow ccol : ℚ) * cropRt⌋).toNat) / 2,
           (crow - (⌊(min crow ccol : ℚ) * cropRt⌋).toNat) / 2,
           (⌊(min crow ccol : ℚ) * cropRt⌋).toNat,
           (⌊(min crow ccol : ℚ) * cropRt⌋).toNat⟩ ∧
    ∃ x y, getCropRect .Random crow ccol cropRt r1 r2 =
        .ok ⟨x, y, (⌊(min crow ccol : ℚ) * cropRt⌋).toNat,
             (⌊(min crow ccol : ℚ) * cropRt⌋).toNat⟩ ∧
      x ≤ ccol - (⌊(min crow ccol : ℚ) * cropRt⌋).toNat ∧
      y ≤ crow - (⌊(min crow ccol : ℚ) * cropRt⌋).toNat := by
  have hgrd : ¬ ¬ (0 < cropRt ∧ cropRt ≤ 1) := not_not_intro ⟨h0, h1⟩
  constructor
  · unfold getCropRect
    rw [if_neg (Nat.pos_iff_ne_zero.mp hrow), if_neg (Nat.pos_iff_ne_zero.mp hcol),
        if_neg hgrd, if_pos ⟨Nat.div_le_self _ _, Nat.div_le_self _ _⟩]
  · refine ⟨uniIntT 0 (ccol - (⌊(min crow ccol : ℚ) * cropRt⌋).toNat) r1,
            uniIntT 0 (crow - (⌊(min crow ccol : ℚ) * cropRt⌋).toNat) r2, ?_,
            uniIntT_le _ r1, uniIntT_le _ r2⟩
    unfold getCropRect
    rw [if_neg (Nat.pos_iff_ne_zero.mp hrow), if_neg (Nat.pos_iff_ne_zero.mp hcol),
        if_neg hgrd, if_pos ⟨uniIntT_le _ r1, uniIntT_le _ r2⟩]

theorem c3_crop_rect_witness :
    (0 < 4 ∧ 0 < 6 ∧ 0 < (1 / 2 : ℚ) ∧ (1 / 2 : ℚ) ≤ 1) ∧
    (getCropRect .Center 4 6 (1 / 2) 7 9 =
      .ok ⟨(6 - (⌊(min 4 6 : ℚ) * (1 / 2)⌋).toNat) / 2,
           (4 - (⌊(min 4 6 : ℚ) * (1 / 2)⌋).toNat) / 2,
           (⌊(min 4 6 : ℚ) * (1 / 2)⌋).toNat,
           (⌊(min 4 6 : ℚ) * (1 / 2)⌋).toNat⟩ ∧
    ∃ x y, getCropRect .Random 4 6 (1 / 2) 7 9 =
        .ok ⟨x, y, (⌊(min 4 6 : ℚ) * (1 / 2)⌋).toNat,
             (⌊(min 4 6 : ℚ) * (1 / 2)⌋).toNat⟩ ∧
      x ≤ 6 - (⌊(min 4 6 : ℚ) * (1 / 2)⌋).toNat ∧
      y ≤ 4 - (⌊(min 4 6 : ℚ) * (1 / 2)⌋).toNat) :=
  ⟨⟨by decide, by decide, by norm_num, by norm_num⟩,
   c3_crop_rect 4 6 (1 / 2) 7 9 (by decide) (by decide) (by norm_num) (by norm_num)⟩

/-- C4: a StartMinibatchLoop call whose requestedEpochSamples is neither the
full-dataset sentinel nor a multiple of mbSize faults: the epoch-size multiple
assertion fires and the call fails instead of starting the loop. -/
theorem c4_epoch_multiple
    (shuffleFn : MT → List (String × Int) → List (String × Int) × MT)
    (rs : ReaderState) (mbSize epoch req : Nat)
    (hmb : mbSize ≠ 0) (hreq : req ≠ 0) (hsent : req ≠ requestDataSize)
    (hmod : req % mbSize ≠ 0) :
    startMinibatchLoop shuffleFn rs mbSize epoch req = .error .assertFailed := by
  unfold startMinibatchLoop
  rw [if_neg hmb, if_neg hreq]
  simp only [if_neg hsent]
  rw [if_pos ⟨hsent, hmod⟩]

theorem c4_epoch_multiple_witness :
    ((2 : Nat) ≠ 0 ∧ (3 : Nat) ≠ 0 ∧ (3 : Nat) ≠ requestDataSize ∧ 3 % 2 ≠ 0) ∧
    startMinibatchLoop shuffleId rsDemo 2 0 3 = .error .assertFailed :=
  ⟨⟨by decide, by decide, by decide, by decide⟩,
   c4_epoch_multiple shuffleId rsDemo 2 0 3 (by decide) (by decide) (by decide)
     (by decide)⟩

/-- C10: when the reset branch is not taken, that is, when
epoch * epochSize < |manifest|, StartMinibatchLoop succeeds and leaves mbStart
exactly as the previous GetMinibatch calls left it; in particular it is not
set to epochStart.  The shuffle oracle is any length-preserving permutation,
which every std::shuffle call is. -/
theorem c10_mbStart_frame
    (shuffleFn : MT → List (String × Int) → List (String × Int) × MT)
    (rs : ReaderState) (mbSize epoch req : Nat)
    (hlen : ∀ g xs, (shuffleFn g xs).1.length = xs.length)
    (hmb : mbSize ≠ 0) (hreq : req ≠ 0)
    (hmul : req = requestDataSize ∨ req % mbSize = 0)
    (hlt : epoch * (if req = requestDataSize then rs.files.length else req) <
      rs.files.length) :
    ∃ rs2, startMinibatchLoop shuffleFn rs mbSize epoch req = .ok rs2 ∧
      rs2.mbStart = rs.mbStart := by
  unfold startMinibatchLoop
  rw [if_neg hmb, if_neg hreq]
  have hfr :
      (if rs.imgListRand then shuffleFn rs.rng rs.files
       else (rs.files, rs.rng)).1.length = rs.files.length := by
    by_cases h : rs.imgListRand
    · rw [if_pos h]; exact hlen _ _
    · rw [if_neg h]
  set fr := if rs.imgListRand then shuffleFn rs.rng rs.files else (rs.files, rs.rng)
    with hfrdef
  have hassert : ¬ (req ≠ requestDataSize ∧
      (if req = requestDataSize then fr.1.length else req) % mbSize ≠ 0) := by
    rcases hmul with h | h
    · exact fun hc => hc.1 h
    · intro hc
      rw [if_neg hc.1] at hc
      exact hc.2 h
  rw [if_neg hassert]
  have hreset : ¬ (fr.1.length ≤
      epoch * (if req = requestDataSize then fr.1.length else req)) := by
    rw [hfr]
    by_cases hs : req = requestDataSize
    · rw [if_pos hs]
      rw [if_pos hs] at hlt
      omega
    · rw [if_neg hs]
      rw [if_neg hs] at hlt
      omega
  simp only [if_neg hreset]
  exact ⟨_, rfl, rfl⟩

theorem c10_mbStart_frame_witness :
    ((2 : Nat) ≠ 0 ∧ (4 : Nat) ≠ 0 ∧
      ((4 : Nat) = requestDataSize ∨ 4 % 2 = 0) ∧
      0 * (if (4 : Nat) = requestDataSize then rsDemoB.files.length else 4) <
        rsDemoB.files.length) ∧
    ∃ rs2, startMinibatchLoop shuffleId rsDemoB 2 0 4 = .ok rs2 ∧
      rs2.mbStart = rsDemoB.mbStart :=
  ⟨⟨by decide, by decide, Or.inr (by decide), by decide⟩,
   c10_mbStart_frame shuffleId rsDemoB 2 0 4 (fun _ _ => rfl) (by decide)
     (by decide) (Or.inr (by decide)) (by decide)⟩

/-- C1: with the minibatch size the loop start established (the mbSize > 0
assertion passes), GetMinibatch never faults; it reports "no more data"
exactly when mbStart ≥ |manifest| or mbStart ≥ epochStart + epochSize, leaving
the state untouched in that case, and otherwise succeeds and advances mbStart
to mbLim = min(mbStart + mbSize, |manifest|). -/
theorem c1_getMinibatch_bounds (procImg : String → List ℚ) (rs : ReaderState)
    (hmb : rs.mbSize ≠ 0) :
    (∃ pr, getMinibatch procImg rs = .ok pr) ∧
    ∀ b rs2, getMinibatch procImg rs = .ok (b, rs2) →
      ((b = false) ↔
        (rs.files.length ≤ rs.mbStart ∨ rs.epochStart + rs.epochSize ≤ rs.mbStart)) ∧
      (b = false → rs2 = rs) ∧
      (b = true → rs2.mbStart = min (rs.mbStart + rs.mbSize) rs.files.length) := by
  unfold getMinibatch
  rw [if_neg hmb]
  by_cases hc : rs.files.length ≤ rs.mbStart ∨ rs.epochStart + rs.epochSize ≤ rs.mbStart
  · rw [if_pos hc]
    refine ⟨⟨_, rfl⟩, ?_⟩
    intro b rs2 heq
    simp only [Except.ok.injEq, Prod.mk.injEq] at heq
    obtain ⟨hb, hs⟩ := heq
    subst hb
    subst hs
    exact ⟨iff_of_true rfl hc, fun _ => rfl, fun h => absurd h (by decide)⟩
  · rw [if_neg hc]
    refine ⟨⟨_, rfl⟩, ?_⟩
    intro b rs2 heq
    simp only [Except.ok.injEq, Prod.mk.injEq] at heq
    obtain ⟨hb, hs⟩ := heq
    subst hb
    refine ⟨iff_of_false (by decide) hc, fun h => absurd h (by decide), fun _ => ?_⟩
    rw [← hs]

theorem c1_getMinibatch_bounds_witness :
    rsDemo.mbSize ≠ 0 ∧ ∃ pr, getMinibatch procConst rsDemo = .ok pr :=
  ⟨by decide, (c1_getMinibatch_bounds procConst rsDemo (by decide)).1⟩

theorem getCropRect_ne_runtime (t : CropType) (crow ccol : Nat) (rt : ℚ)
    (r1 r2 : Nat) (msg : String) :
    getCropRect t crow ccol rt r1 r2 ≠ .error (.runtimeError msg) := by
  simp only [getCropRect]
  split_ifs <;> simp

/-- C8: the unimplemented jitter kinds unilength and uniarea pass
ParseJitterType (so CropTransform::Init accepts them), every subsequent
CropTransform::Apply on such a configuration fails with the
"not implemented" RuntimeError for every possible generator draw, and an
Apply under the implemented kinds none and uniratio never produces that
error. -/
theorem c8_jitter_not_implemented :
    parseJitterType "unilength" = .ok .UniLength ∧
    parseJitterType "uniarea" = .ok .UniArea ∧
    (∀ (rd : ℚ) (r1 r2 : Nat) (fd : Bool) (st : CropState) (img : Img),
      st.jitterType = .UniLength ∨ st.jitterType = .UniArea →
      cropApply rd r1 r2 fd st img =
        .error (.runtimeError "Jitter type currently not implemented.")) ∧
    (∀ (rd : ℚ) (r1 r2 : Nat) (fd : Bool) (st : CropState) (img : Img),
      st.jitterType = .None ∨ st.jitterType = .UniRatio →
      cropApply rd r1 r2 fd st img ≠
        .error (.runtimeError "Jitter type currently not implemented.")) := by
  refine ⟨by decide, by decide, ?_, ?_⟩
  · intro rd r1 r2 fd st img h
    rcases h with h | h <;> simp [cropApply, h]
  · intro rd r1 r2 fd st img h heq
    rcases h with h | h <;>
    · simp only [cropApply, h] at heq
      repeat' split at heq
      all_goals
        first
        | exact Except.noConfusion heq
        | (injection heq with he; exact Err.noConfusion he)
        | (injection heq with he
           subst he
           exact getCropRect_ne_runtime _ _ _ _ _ _ _ (by assumption))

theorem c8_jitter_not_implemented_witness :
    cropApply 1 0 0 false cropStX imgSmall =
      .error (.runtimeError "Jitter type currently not implemented.") :=
  c8_jitter_not_implemented.2.2.1 1 0 0 false cropStX imgSmall (Or.inl rfl)

/-- C6 (amended): a successful ScaleTransform::Apply always yields the
configured width and height and the configured floating-point depth, but the
channel count of the output equals that of the input image — cv::resize and
convertTo both preserve channels — so it matches the configured channel count
only when the input already has it. -/
theorem c6_scale_dims (resample : Nat → Img → List ℚ) (rDraw : Nat)
    (st : ScaleState) (img : Img) (out : Img) (st2 : ScaleState)
    (hok : scaleApply resample rDraw st img = .ok (out, st2)) :
    out.cols = st.width ∧ out.rows = st.height ∧
    out.channels = img.channels ∧ out.depth = st.dataType := by
  simp only [scaleApply] at hok
  split at hok
  · exact absurd hok (by simp)
  · simp only [Except.ok.injEq, Prod.mk.injEq] at hok
    obtain ⟨ho, _⟩ := hok
    subst ho
    by_cases hcnv : img.depth ≠ st.dataType ∨ img.channels ≠ st.channels
    · rw [if_pos hcnv]
      exact ⟨rfl, rfl, rfl, rfl⟩
    · rw [if_neg hcnv]
      push_neg at hcnv
      exact ⟨rfl, rfl, rfl, hcnv.1⟩

theorem c6_scale_dims_witness :
    scaleDemo.1.cols = scaleStX.width ∧ scaleDemo.1.rows = scaleStX.height ∧
    scaleDemo.1.channels = imgSmall.channels ∧
    scaleDemo.1.depth = scaleStX.dataType :=
  c6_scale_dims resampleConst 0 scaleStX imgSmall scaleDemo.1 scaleDemo.2 rfl

/-- C6 (counterexample): on a one-channel input with three configured
channels, the output of ScaleTransform::Apply has one channel, not the
configured three, so the output channel count is not the configured one
regardless of the input. -/
theorem c6_scale_dims_counterexample :
    (scaleApply resampleConst 0 scaleStX imgSmall).map (fun pr => pr.1.channels) =
      .ok 1 ∧ scaleStX.channels = 3 := by decide

/-- C7 (amended): MeanTransform::Apply subtracts the mean image elementwise
exactly when the (cols, rows) sizes match; with no configured mean image (the
empty matrix) and a nonempty sample the call is a silent no-op; but with a
configured mean image any size or channel mismatch violates the entry
assertion and the call faults instead of silently skipping. -/
theorem c7_mean_subtract (meanImg mat : Img) :
    ((meanImg.cols = 0 ∧ meanImg.rows = 0) → ¬ (mat.cols = 0 ∧ mat.rows = 0) →
      meanApply meanImg mat = .ok mat) ∧
    ((meanImg.cols = mat.cols ∧ meanImg.rows = mat.rows ∧
        meanImg.channels = mat.channels) →
      meanApply meanImg mat =
        .ok { mat with data := List.zipWith (· - ·) mat.data meanImg.data }) ∧
    (¬ (meanImg.cols = 0 ∧ meanImg.rows = 0) →
     ¬ (meanImg.cols = mat.cols ∧ meanImg.rows = mat.rows ∧
        meanImg.channels = mat.channels) →
      meanApply meanImg mat = .error .assertFailed) := by
  refine ⟨?_, ?_, ?_⟩
  · intro hE hM
    unfold meanApply
    rw [if_neg (not_not_intro (Or.inl hE))]
    rw [if_neg (fun hc => hM ⟨hE.1 ▸ hc.1.symm, hE.2 ▸ hc.2.symm⟩)]
  · intro hF
    unfold meanApply
    rw [if_neg (not_not_intro (Or.inr ⟨⟨hF.1, hF.2.1⟩, hF.2.2⟩))]
    rw [if_pos ⟨hF.1, hF.2.1⟩]
  · intro hNE hNF
    unfold meanApply
    rw [if_pos]
    intro hdis
    rcases hdis with hE | hFull
    · exact hNE hE
    · exact hNF ⟨hFull.1.1, hFull.1.2, hFull.2⟩

theorem c7_mean_subtract_witness :
    meanApply meanX meanX =
      .ok { meanX with data := List.zipWith (· - ·) meanX.data meanX.data } :=
  (c7_mean_subtract meanX meanX).2.1 ⟨rfl, rfl, rfl⟩

/-- C7 (counterexample): a 2 x 2 one-channel mean image against a 2 x 2
three-channel sample is a channel mismatch, and MeanTransform::Apply faults
on it (the entry assertion fires) instead of leaving the sample unchanged
without an error. -/
theorem c7_mean_subtract_counterexample :
    meanApply meanX imgWide = .error .assertFailed ∧
    meanX.channels ≠ imgWide.channels := by decide

/-- C9 (amended): SetRandomSeed replaces the shared seed of the reader and
immediately reseeds the shuffle generator m_rng, but it leaves the transforms
untouched: their pool generators are created from the seed each transform
captured at reader construction (always 0), so a pool generator created after
SetRandomSeed is seeded with the construction-time seed, not with the new
value. -/
theorem c9_seed_scope (rs : ReaderState) (s : Nat) :
    (setRandomSeed rs s).seed = s ∧
    (setRandomSeed rs s).rng = ⟨s⟩ ∧
    (setRandomSeed rs s).cropT = rs.cropT ∧
    (setRandomSeed rs s).scaleT = rs.scaleT ∧
    (∀ d, (mkImageReader d).cropT.seed = 0 ∧ (mkImageReader d).scaleT.seed = 0) ∧
    (∀ st : CropState, st.pool = [] →
      (popOrCreate st.pool st.seed).1 = ⟨st.seed⟩) ∧
    (∀ (rd : ℚ) (r1 r2 : Nat) (fd : Bool) (st : CropState) (img : Img)
       (pr : Img × CropState), st.pool = [] →
      cropApply rd r1 r2 fd st img = .ok pr → pr.2.pool = [⟨st.seed⟩]) := by
  refine ⟨rfl, rfl, rfl, rfl, fun d => ⟨rfl, rfl⟩,
    fun st hp => by rw [hp]; rfl, ?_⟩
  intro rd r1 r2 fd st img pr hp hok
  simp only [cropApply, hp, popOrCreate] at hok
  repeat' split at hok
  all_goals first
    | exact Except.noConfusion hok
    | (simp only [Except.ok.injEq] at hok
       rw [← hok])

theorem c9_seed_scope_witness :
    cropStY.pool = [] ∧ (popOrCreate cropStY.pool cropStY.seed).1 = ⟨cropStY.seed⟩ :=
  ⟨rfl, (c9_seed_scope rsSeeded 7).2.2.2.2.2.1 cropStY rfl⟩

/-- C9 (counterexample): after SetRandomSeed(7) the reader carries seed 7, yet
the generator the crop transform pool creates next is seeded with the
construction-time seed 0, not with 7. -/
theorem c9_seed_scope_counterexample :
    rsSeeded.seed = 7 ∧
    (popOrCreate rsSeeded.cropT.pool rsSeeded.cropT.seed).1.seed = 0 ∧
    (0 : Nat) ≠ 7 := by decide

theorem loadManifestAux_isOk (lines : List String) : ∀ k,
    (∃ v, loadManifestAux k lines = .ok v) ↔
      ∀ l ∈ lines, lineAccepted l = true := by
  induction lines with
  | nil => intro k; simp [loadManifestAux]
  | cons line rest ih =>
    intro k
    constructor
    · rintro ⟨v, hv⟩ l hl
      simp only [loadManifestAux] at hv
      cases hp : parseMapLine line with
      | none => simp only [hp] at hv; exact Except.noConfusion hv
      | some pc =>
        simp only [hp] at hv
        cases hs : stoi pc.2 with
        | error e => simp only [hs] at hv; exact Except.noConfusion hv
        | ok w =>
          simp only [hs] at hv
          cases ht : loadManifestAux (k + 1) rest with
          | error e => simp only [ht] at hv; exact Except.noConfusion hv
          | ok tail =>
            rcases List.mem_cons.mp hl with rfl | hl2
            · simp [lineAccepted, hp, hs]
            · exact ((ih (k + 1)).mp ⟨tail, ht⟩) l hl2
    · intro hall
      have hline := hall line (List.mem_cons_self line rest)
      unfold lineAccepted at hline
      cases hp : parseMapLine line with
      | none => simp only [hp] at hline; exact absurd hline (by decide)
      | some pc =>
        simp only [hp] at hline
        cases hs : stoi pc.2 with
        | error e => simp only [hs] at hline; exact absurd hline (by decide)
        | ok w =>
          obtain ⟨tail, ht⟩ :=
            (ih (k + 1)).mpr (fun l hl => hall l (List.mem_cons_of_mem _ hl))
          exact ⟨(pc.1, w) :: tail, by simp [loadManifestAux, hp, hs, ht]⟩

theorem loadManifestAux_format (lines : List String) : ∀ k j,
    j < lines.length →
    (∀ i, i < j → lineAccepted (lines.getD i "") = true) →
    parseMapLine (lines.getD j "") = none →
    loadManifestAux k lines = .error (.mapFormatError (k + j)) := by
  induction lines with
  | nil => intro k j hj _ _; simp at hj
  | cons line rest ih =>
    intro k j hj hpre hbad
    cases j with
    | zero =>
      rw [List.getD_cons_zero] at hbad
      simp [loadManifestAux, hbad]
    | succ j2 =>
      have hline := hpre 0 (Nat.succ_pos j2)
      rw [List.getD_cons_zero] at hline
      unfold lineAccepted at hline
      cases hp : parseMapLine line with
      | none => simp only [hp] at hline; exact absurd hline (by decide)
      | some pc =>
        simp only [hp] at hline
        cases hs : stoi pc.2 with
        | error e => simp only [hs] at hline; exact absurd hline (by decide)
        | ok w =>
          have hrec := ih (k + 1) j2 (by simpa using hj)
            (fun i hi => by
              have h2 := hpre (i + 1) (by omega)
              rwa [List.getD_cons_succ] at h2)
            (by rwa [List.getD_cons_succ] at hbad)
          have harith : k + 1 + j2 = k + (j2 + 1) := by omega
          rw [harith] at hrec
          simp [loadManifestAux, hp, hs, hrec]

theorem loadManifestAux_stoi (lines : List String) : ∀ k j pc e,
    j < lines.length →
    (∀ i, i < j → lineAccepted (lines.getD i "") = true) →
    parseMapLine (lines.getD j "") = some pc →
    stoi pc.2 = .error e →
    loadManifestAux k lines = .error e := by
  induction lines with
  | nil => intro k j pc e hj _ _ _; simp at hj
  | cons line rest ih =>
    intro k j pc e hj hpre hsome hserr
    cases j with
    | zero =>
      rw [List.getD_cons_zero] at hsome
      simp [loadManifestAux, hsome, hserr]
    | succ j2 =>
      have hline := hpre 0 (Nat.succ_pos j2)
      rw [List.getD_cons_zero] at hline
      unfold lineAccepted at hline
      cases hp : parseMapLine line with
      | none => simp only [hp] at hline; exact absurd hline (by decide)
      | some pc2 =>
        simp only [hp] at hline
        cases hs : stoi pc2.2 with
        | error e2 => simp only [hs] at hline; exact absurd hline (by decide)
        | ok w =>
          have hrec := ih (k + 1) j2 pc e (by simpa using hj)
            (fun i hi => by
              have h2 := hpre (i + 1) (by omega)
              rwa [List.getD_cons_succ] at h2)
            (by rwa [List.getD_cons_succ] at hsome) hserr
          simp [loadManifestAux, hp, hs, hrec]

/-- C5 (amended): loading the manifest succeeds exactly when on every line
both tab-delimited getline calls succeed and std::stoi accepts the second
field — extra fields beyond the second and trailing characters after the
parsed integer are ignored, so "exactly two fields with an integer field" is
not required.  When the first bad line fails its getline pair, the load fails
with the map-format error naming that 0-based line number; but when the first
bad line has a second field std::stoi rejects, the load fails with the stoi
exception, which names no line number. -/
theorem c5_manifest_load (lines : List String) :
    ((∃ v, loadManifest lines = .ok v) ↔ ∀ l ∈ lines, lineAccepted l = true) ∧
    (∀ j, j < lines.length →
      (∀ i, i < j → lineAccepted (lines.getD i "") = true) →
      parseMapLine (lines.getD j "") = none →
      loadManifest lines = .error (.mapFormatError j)) ∧
    (∀ j pc e, j < lines.length →
      (∀ i, i < j → lineAccepted (lines.getD i "") = true) →
      parseMapLine (lines.getD j "") = some pc →
      stoi pc.2 = .error e →
      loadManifest lines = .error e) := by
  refine ⟨loadManifestAux_isOk lines 0, ?_, ?_⟩
  · intro j hj hpre hbad
    have h := loadManifestAux_format lines 0 j hj hpre hbad
    rwa [Nat.zero_add] at h
  · intro j pc e hj hpre hsome hserr
    exact loadManifestAux_stoi lines 0 j pc e hj hpre hsome hserr

theorem c5_manifest_load_witness :
    (∀ l ∈ ["a\t1", "b\t2"], lineAccepted l = true) ∧
    ∃ v, loadManifest ["a\t1", "b\t2"] = .ok v :=
  ⟨by decide, (c5_manifest_load ["a\t1", "b\t2"]).1.mpr (by decide)⟩

/-- C5 (counterexample): a line with three tab-separated fields loads
successfully, so "succeeds only if every line consists of exactly two
tab-separated fields" is false; and a non-integer second field fails the load
with the stoi exception, which does not name the offending line number, not
with the format error that does. -/
theorem c5_manifest_load_counterexample :
    loadManifest ["a\t1\tb"] = .ok [("a", 1)] ∧
    loadManifest ["a\tx"] = .error .stoiInvalidArgument ∧
    Err.stoiInvalidArgument ≠ .mapFormatError 0 := by decide

theorem getD_set_ne (v : ℚ) : ∀ (xs : List ℚ) (n j : Nat), j ≠ n →
    (xs.set n v).getD j 0 = xs.getD j 0 := by
  intro xs
  induction xs with
  | nil => intro n j _; rfl
  | cons x xs ih =>
    intro n j hne
    cases n with
    | zero =>
      cases j with
      | zero => exact absurd rfl hne
      | succ j2 => simp [List.set_cons_zero]
    | succ n2 =>
      cases j with
      | zero => simp [List.set_cons_succ]
      | succ j2 =>
        simp only [List.set_cons_succ, List.getD_cons_succ]
        exact ih n2 j2 (by omega)

theorem getD_set_self (v : ℚ) : ∀ (xs : List ℚ) (n : Nat), n < xs.length →
    (xs.set n v).getD n 0 = v := by
  intro xs
  induction xs with
  | nil => intro n h; simp at h
  | cons x xs ih =>
    intro n h
    cases n with
    | zero => simp [List.set_cons_zero]
    | succ n2 =>
      simp only [List.set_cons_succ, List.getD_cons_succ]
      exact ih n2 (by simpa using h)

theorem getD_replicate_zero : ∀ (d j : Nat), (List.replicate d (0 : ℚ)).getD j 0 = 0 := by
  intro d
  induction d with
  | zero => intro j; rfl
  | succ d2 ih =>
    intro j
    cases j with
    | zero => simp [List.replicate_succ]
    | succ j2 =>
      simp only [List.replicate_succ, List.getD_cons_succ]
      exact ih j2

theorem set_append_right (v : ℚ) : ∀ (as bs : List ℚ) (n : Nat),
    (as ++ bs).set (as.length + n) v = as ++ bs.set n v := by
  intro as
  induction as with
  | nil => intro bs n; simp
  | cons a as ih =>
    intro bs n
    simp only [List.cons_append, List.length_cons]
    have h : as.length + 1 + n = (as.length + n) + 1 := by omega
    rw [h, List.set_cons_succ, ih]

theorem set_append_left (v : ℚ) : ∀ (as bs : List ℚ) (n : Nat), n < as.length →
    (as ++ bs).set n v = as.set n v ++ bs := by
  intro as
  induction as with
  | nil => intro bs n h; simp at h
  | cons a as ih =>
    intro bs n h
    cases n with
    | zero => simp [List.set_cons_zero]
    | succ n2 =>
      simp only [List.cons_append, List.set_cons_succ]
      rw [ih _ _ (by simpa using h)]

theorem wrapIdx_eq (a : Nat) (l : Int) (h0 : 0 ≤ l) (hlt : a + l.toNat < 2 ^ 64) :
    wrapIdx ((a : Int) + l) = a + l.toNat := by
  unfold wrapIdx
  have hN : (2 : Nat) ^ 64 = 18446744073709551616 := by norm_num
  have hZ : (2 : Int) ^ 64 = 18446744073709551616 := by norm_num
  rw [hZ]
  rw [hN] at hlt
  omega

theorem oneHot_length (d : Nat) (l : Int) : (oneHot d l).length = d := by
  simp [oneHot]

theorem oneHot_getD (d : Nat) (l : Int) (j : Nat) (h0 : 0 ≤ l)
    (hl : l < (d : Int)) (hj : j < d) :
    (oneHot d l).getD j 0 = if (j : Int) = l then 1 else 0 := by
  unfold oneHot
  by_cases hjl : j = l.toNat
  · subst hjl
    rw [getD_set_self 1 _ _ (by simp [List.length_replicate]; omega)]
    rw [if_pos (by omega)]
  · rw [getD_set_ne 1 _ _ _ hjl, getD_replicate_zero, if_neg (by omega)]

theorem sum_set_one : ∀ (d k : Nat), k < d →
    ((List.replicate d (0 : ℚ)).set k 1).sum = 1 := by
  intro d
  induction d with
  | zero => intro k h; simp at h
  | succ d2 ih =>
    intro k hk
    cases k with
    | zero => simp [List.replicate_succ, List.set_cons_zero, List.sum_replicate]
    | succ k2 =>
      simp only [List.replicate_succ, List.set_cons_succ, List.sum_cons]
      rw [ih k2 (by omega), zero_add]

theorem oneHot_sum (d : Nat) (l : Int) (h0 : 0 ≤ l) (hl : l < (d : Int)) :
    (oneHot d l).sum = 1 :=
  sum_set_one d l.toNat (by omega)

theorem flatten_oneHot_sum (d : Nat) : ∀ (labels : List Int),
    (∀ l ∈ labels, 0 ≤ l ∧ l < (d : Int)) →
    ((labels.map (oneHot d)).flatten).sum = (labels.length : ℚ) := by
  intro labels
  induction labels with
  | nil => intro _; simp
  | cons l rest ih =>
    intro hb
    have hl := hb l (List.mem_cons_self l rest)
    simp only [List.map_cons, List.flatten_cons, List.sum_append, List.length_cons]
    rw [oneHot_sum d l hl.1 hl.2, ih (fun x hx => hb x (List.mem_cons_of_mem _ hx))]
    push_cast
    ring

theorem flatten_oneHot_length (d : Nat) : ∀ (labels : List Int),
    ((labels.map (oneHot d)).flatten).length = d * labels.length := by
  intro labels
  induction labels with
  | nil => simp
  | cons l rest ih =>
    simp only [List.map_cons, List.flatten_cons, List.length_append, oneHot_length,
      List.length_cons, ih]
    ring

theorem getD_flatten_const (d : Nat) : ∀ (rows : List (List ℚ)) (i j : Nat),
    (∀ r ∈ rows, r.length = d) → i < rows.length → j < d →
    rows.flatten.getD (d * i + j) 0 = (rows.getD i []).getD j 0 := by
  intro rows
  induction rows with
  | nil => intro i j _ hi _; simp at hi
  | cons row rest ih =>
    intro i j hlen hi hj
    have hrow : row.length = d := hlen row (List.mem_cons_self row rest)
    cases i with
    | zero =>
      simp only [List.flatten_cons, Nat.mul_zero, Nat.zero_add, List.getD_cons_zero]
      exact List.getD_append row rest.flatten 0 j (by omega)
    | succ i2 =>
      have hidx : d * (i2 + 1) + j = row.length + (d * i2 + j) := by
        rw [hrow]
        ring
      simp only [List.flatten_cons, List.getD_cons_succ]
      rw [hidx, List.getD_append_right row rest.flatten 0 _ (by omega)]
      have hsub : row.length + (d * i2 + j) - row.length = d * i2 + j := by omega
      rw [hsub]
      exact ih i2 j (fun r hr => hlen r (List.mem_cons_of_mem _ hr))
        (by simpa using hi) hj

theorem writeLabels_peel (labD : Nat) :
    ∀ (labels : List Int) (i2 : Nat) (row buf : List ℚ),
      row.length = labD →
      (∀ l ∈ labels, 0 ≤ l ∧ l < (labD : Int)) →
      labD * (i2 + 1 + labels.length) ≤ labD + buf.length →
      labD + buf.length < 2 ^ 64 →
      writeLabels labD (i2 + 1) labels (row ++ buf) =
        row ++ writeLabels labD i2 labels buf := by
  intro labels
  induction labels with
  | nil => intro i2 row buf _ _ _ _; rfl
  | cons l rest ih =>
    intro i2 row buf hrow hb hle hbig
    have hl := hb l (List.mem_cons_self l rest)
    have hlen : (l :: rest).length = rest.length + 1 := List.length_cons l rest
    have hmul1 : labD * (i2 + 1 + 1) ≤ labD * (i2 + 1 + (l :: rest).length) := by
      apply Nat.mul_le_mul_left
      simp [hlen]
    have hmul2 : labD * (i2 + 1 + 1) = labD * (i2 + 1) + labD := by ring
    have htn : l.toNat < labD := by omega
    have hibound : labD * (i2 + 1) + l.toNat < 2 ^ 64 := by omega
    have hibound2 : labD * i2 + l.toNat < 2 ^ 64 := by
      have : labD * i2 ≤ labD * (i2 + 1) := Nat.mul_le_mul_left labD (by omega)
      omega
    have hidx : wrapIdx ((labD * (i2 + 1) : Nat) + l) = labD * (i2 + 1) + l.toNat :=
      wrapIdx_eq _ l hl.1 hibound
    have hidx2 : wrapIdx ((labD * i2 : Nat) + l) = labD * i2 + l.toNat :=
      wrapIdx_eq _ l hl.1 hibound2
    have hsplit : labD * (i2 + 1) + l.toNat = row.length + (labD * i2 + l.toNat) := by
      rw [hrow]
      have : labD * (i2 + 1) = labD + labD * i2 := by ring
      omega
    show writeLabels labD (i2 + 1 + 1) rest
        ((row ++ buf).set (wrapIdx ((labD * (i2 + 1) : Nat) + l)) 1) =
      row ++ writeLabels labD (i2 + 1) rest (buf.set (wrapIdx ((labD * i2 : Nat) + l)) 1)
    rw [hidx, hidx2, hsplit, set_append_right]
    rw [ih (i2 + 1) row (buf.set (labD * i2 + l.toNat) 1) hrow
      (fun x hx => hb x (List.mem_cons_of_mem _ hx))
      (by rw [List.length_set]; calc
            labD * (i2 + 1 + 1 + rest.length) = labD * (i2 + 1 + (l :: rest).length) := by
              rw [hlen]; ring
            _ ≤ labD + buf.length := hle)
      (by rw [List.length_set]; exact hbig)]

theorem writeLabels_replicate (labD : Nat) :
    ∀ (labels : List Int) (m : Nat),
      (∀ l ∈ labels, 0 ≤ l ∧ l < (labD : Int)) →
      labels.length ≤ m →
      labD * m < 2 ^ 64 →
      writeLabels labD 0 labels (List.replicate (labD * m) (0 : ℚ)) =
        (labels.map (oneHot labD)).flatten ++
          List.replicate (labD * (m - labels.length)) 0 := by
  intro labels
  induction labels with
  | nil => intro m _ _ _; simp [writeLabels]
  | cons l rest ih =>
    intro m hb hlen hbig
    have hl := hb l (List.mem_cons_self l rest)
    have hm : 1 ≤ m := by
      have := List.length_cons l rest
      omega
    obtain ⟨m2, rfl⟩ : ∃ m2, m = m2 + 1 := ⟨m - 1, by omega⟩
    have hlD : 0 < labD := by omega
    have htn : l.toNat < labD := by omega
    have hDle : labD ≤ labD * (m2 + 1) := Nat.le_mul_of_pos_right labD (by omega)
    have hidx : wrapIdx ((labD * 0 : Nat) + l) = l.toNat := by
      have h := wrapIdx_eq (labD * 0) l hl.1 (by simp; omega)
      simpa using h
    have hZ : List.replicate (labD * (m2 + 1)) (0 : ℚ) =
        List.replicate labD 0 ++ List.replicate (labD * m2) 0 := by
      rw [← List.replicate_add]
      congr 1
      ring
    show writeLabels labD 1 rest
        ((List.replicate (labD * (m2 + 1)) (0 : ℚ)).set (wrapIdx ((labD * 0 : Nat) + l)) 1) =
      ((l :: rest).map (oneHot labD)).flatten ++
        List.replicate (labD * (m2 + 1 - (l :: rest).length)) 0
    rw [hidx, hZ, set_append_left 1 _ _ _ (by simp [List.length_replicate]; omega)]
    have hone : (List.replicate labD (0 : ℚ)).set l.toNat 1 = oneHot labD l := rfl
    rw [hone]
    have hpeel := writeLabels_peel labD rest 0 (oneHot labD l)
      (List.replicate (labD * m2) 0) (oneHot_length labD l)
      (fun x hx => hb x (List.mem_cons_of_mem _ hx))
      (by
        rw [List.length_replicate]
        have h1 : labD * (0 + 1 + rest.length) = labD * (1 + rest.length) := by ring
        have h2 : labD + labD * m2 = labD * (1 + m2) := by ring
        have h3 : rest.length ≤ m2 := by
          have := List.length_cons l rest
          omega
        rw [h1, h2]
        exact Nat.mul_le_mul_left labD (by omega))
      (by
        rw [List.length_replicate]
        have h2 : labD + labD * m2 = labD * (m2 + 1) := by ring
        omega)
    rw [hpeel]
    rw [ih m2 (fun x hx => hb x (List.mem_cons_of_mem _ hx))
      (by have := List.length_cons l rest; omega)
      (by have h2 : labD * m2 ≤ labD * (m2 + 1) := Nat.mul_le_mul_left labD (by omega); omega)]
    simp only [List.map_cons, List.flatten_cons, List.append_assoc, List.length_cons]
    have hms : m2 + 1 - (rest.length + 1) = m2 - rest.length := by omega
    rw [hms]

/-- C2: when every manifest label lies in [0, labelDim), the label buffer a
successful GetMinibatch hands off (its first labelDim * actualBatchSize
entries) is one-hot per sample row — entry labelDim * i + j is 1 exactly when
j is the label of sample mbStart + i and 0 otherwise — and the whole
handed-off buffer sums to the actual batch size mbLim - mbStart.  The buffer
length hypothesis is the invariant StartMinibatchLoop establishes, and the
2^64 bound says the buffer is addressable in size_t. -/
theorem c2_label_onehot (procImg : String → List ℚ) (rs rs2 : ReaderState)
    (hlab : ∀ e ∈ rs.files, 0 ≤ e.2 ∧ e.2 < (rs.labDim : Int))
    (hbuf : rs.labBuf.length = rs.mbSize * rs.labDim)
    (hbig : rs.mbSize * rs.labDim < 2 ^ 64)
    (hok : getMinibatch procImg rs = .ok (true, rs2)) :
    (∀ i, i < actualBatch rs → ∀ j, j < rs.labDim →
      (rs2.labBuf.take (rs.labDim * actualBatch rs)).getD (rs.labDim * i + j) 0 =
        if (j : Int) = (rs.files.getD (rs.mbStart + i) ("", 0)).2 then 1 else 0) ∧
    (rs2.labBuf.take (rs.labDim * actualBatch rs)).sum = (actualBatch rs : ℚ) := by
  simp only [getMinibatch] at hok
  split at hok
  · exact absurd hok (by simp)
  · split at hok
    · simp at hok
    · simp only [Except.ok.injEq, Prod.mk.injEq, true_and] at hok
      have hlb : rs2.labBuf = writeLabels rs.labDim 0
          (((rs.files.drop rs.mbStart).take
            (min (rs.mbStart + rs.mbSize) rs.files.length - rs.mbStart)).map Prod.snd)
          (List.replicate rs.labBuf.length 0) := by
        rw [← hok]
      have hbs_eq : actualBatch rs =
          min (rs.mbStart + rs.mbSize) rs.files.length - rs.mbStart := rfl
      have hlab_len : (((rs.files.drop rs.mbStart).take
          (min (rs.mbStart + rs.mbSize) rs.files.length - rs.mbStart)).map
            Prod.snd).length = actualBatch rs := by
        rw [List.length_map, List.length_take, List.length_drop, hbs_eq]
        omega
      have hlab_mem : ∀ l ∈ ((rs.files.drop rs.mbStart).take
          (min (rs.mbStart + rs.mbSize) rs.files.length - rs.mbStart)).map Prod.snd,
          0 ≤ l ∧ l < (rs.labDim : Int) := by
        intro l hm
        obtain ⟨e, he, rfl⟩ := List.mem_map.mp hm
        exact hlab e (List.mem_of_mem_drop (List.mem_of_mem_take he))
      have hbs_le : actualBatch rs ≤ rs.mbSize := by rw [hbs_eq]; omega
      have hwr : writeLabels rs.labDim 0
          (((rs.files.drop rs.mbStart).take
            (min (rs.mbStart + rs.mbSize) rs.files.length - rs.mbStart)).map Prod.snd)
          (List.replicate rs.labBuf.length 0) =
          ((((rs.files.drop rs.mbStart).take
            (min (rs.mbStart + rs.mbSize) rs.files.length - rs.mbStart)).map
              Prod.snd).map (oneHot rs.labDim)).flatten ++
            List.replicate (rs.labDim * (rs.mbSize - actualBatch rs)) 0 := by
        rw [hbuf, Nat.mul_comm rs.mbSize rs.labDim]
        rw [writeLabels_replicate rs.labDim _ rs.mbSize hlab_mem
          (hlab_len ▸ hbs_le) (by rw [Nat.mul_comm]; exact hbig)]
        rw [hlab_len]
      have htake : rs2.labBuf.take (rs.labDim * actualBatch rs) =
          ((((rs.files.drop rs.mbStart).take
            (min (rs.mbStart + rs.mbSize) rs.files.length - rs.mbStart)).map
              Prod.snd).map (oneHot rs.labDim)).flatten := by
        rw [hlb, hwr]
        have hlen2 : rs.labDim * actualBatch rs =
            (((((rs.files.drop rs.mbStart).take
              (min (rs.mbStart + rs.mbSize) rs.files.length - rs.mbStart)).map
                Prod.snd).map (oneHot rs.labDim)).flatten).length := by
          rw [flatten_oneHot_length, hlab_len]
        rw [hlen2, List.take_left]
      constructor
      · intro i hi j hj
        rw [htake]
        have hrows : ∀ r ∈ (((rs.files.drop rs.mbStart).take
            (min (rs.mbStart + rs.mbSize) rs.files.length - rs.mbStart)).map
              Prod.snd).map (oneHot rs.labDim), r.length = rs.labDim := by
          intro r hr
          obtain ⟨l, _, rfl⟩ := List.mem_map.mp hr
          exact oneHot_length rs.labDim l
        have hilen : i < (((rs.files.drop rs.mbStart).take
            (min (rs.mbStart + rs.mbSize) rs.files.length - rs.mbStart)).map
              Prod.snd).length := by
          rw [hlab_len]
          exact hi
        have hi2 : i < ((((rs.files.drop rs.mbStart).take
            (min (rs.mbStart + rs.mbSize) rs.files.length - rs.mbStart)).map
              Prod.snd).map (oneHot rs.labDim)).length := by
          rw [List.length_map]
          exact hilen
        rw [getD_flatten_const rs.labDim _ i j hrows hi2 hj]
        have hfl : rs.mbStart + i < rs.files.length := by
          rw [hbs_eq] at hi
          omega
        have h1 : ((((rs.files.drop rs.mbStart).take
            (min (rs.mbStart + rs.mbSize) rs.files.length - rs.mbStart)).map
              Prod.snd).map (oneHot rs.labDim)).getD i [] =
            oneHot rs.labDim ((rs.files.getD (rs.mbStart + i) ("", 0)).2) := by
          rw [List.getD_eq_getElem _ _ hi2]
          rw [List.getD_eq_getElem rs.files ("", 0) hfl]
          simp only [List.getElem_map, List.getElem_take, List.getElem_drop]
        rw [h1]
        have hmem : rs.files.getD (rs.mbStart + i) ("", 0) ∈ rs.files := by
          rw [List.getD_eq_getElem rs.files ("", 0) hfl]
          exact List.getElem_mem hfl
        have hbd := hlab _ hmem
        rw [oneHot_getD rs.labDim _ j hbd.1 hbd.2 hj]
      · rw [htake, flatten_oneHot_sum rs.labDim _ hlab_mem, hlab_len]

theorem c2_label_onehot_witness :
    (rsDemo2.labBuf.take (rsDemo.labDim * actualBatch rsDemo)).sum =
      (actualBatch rsDemo : ℚ) :=
  (c2_label_onehot procConst rsDemo rsDemo2 (by decide) (by decide)
    (by decide) rfl).2

end ImageReaderModel
